import Mathlib

/-!
Verification of the view-function addressing, dispatch and metadata
machinery of the `polkadot-sdk` fragment
(`frame/support/procedural/src/pallet/expand/view_functions.rs` and
`primitives/metadata-ir/src/types.rs`).

The procedural macro in `view_functions.rs` generates, for a pallet
described by a `Def` value, concrete Rust items; we embed the semantics
of the generated items as Lean functions parameterised by the data the
macro reads from the pallet definition (the list of view-function
definitions, the pallet's registered name hash, the doc-capture
feature flag).  Bytes are modelled as `Nat`; fixed-size byte arrays as
length-indexed subtypes of `List Nat`.
-/

/-- A 16-byte array, as used for `[u8; 16]` identifier halves. -/
def Bytes16 : Type := { l : List Nat // l.length = 16 }

instance : DecidableEq Bytes16 := fun a b =>
  decidable_of_iff (a.val = b.val) Subtype.ext_iff.symm

/-- The 32-byte view-function identifier
(`ViewFunctionId { prefix: [u8;16], suffix: [u8;16] }` from
frame-support, referenced by the generated `id()` impl).  The Rust
field `prefix` is a Lean keyword, so it is rendered `prefix_`. -/
structure ViewFunctionId where
  prefix_ : Bytes16
  suffix : Bytes16
deriving DecidableEq

/-- Modelled from the spec: the conversion `ViewFunctionId -> [u8; 32]`
(the `.into()` applied in the generated metadata code; the `From` impl
lives in frame-support, outside `src/`).  Per the spec the id is "a
32-byte value, composed of a 16-byte prefix ... and a 16-byte suffix". -/
def ViewFunctionId.toBytes (id : ViewFunctionId) : List Nat :=
  id.prefix_.val ++ id.suffix.val

/-- Modelled from the spec: the dispatch error type
(`ViewFunctionDispatchError`, declared in frame-support outside
`src/`).  The generated dispatch match itself only constructs
`NotFound(id)`; per the spec, decode failures from the codec boundary
are "a distinct error kind from NotFound", modelled as `Codec`. -/
inductive ViewFunctionDispatchError where
  | NotFound (id : ViewFunctionId)
  | Codec
deriving DecidableEq

/-- Modelled from the spec: the fatal (panicking) configuration error
raised by the generated `prefix()` when the pallet's `name_hash` is
`None` ("This usually means that the pallet was not added to
construct_runtime!").  A Rust panic is embedded as the error branch of
`Except`. -/
inductive PalletSetupError where
  | palletNotInRuntime
deriving DecidableEq

/-- The data of one view function that the macro expansion consumes
(`ViewFunctionDef` on the parse side): its name, its arguments as
(pattern name, argument type) pairs, its return type, its doc strings,
the 16-byte `SUFFIX` constant (`view_function_id_suffix_bytes()`, an
opaque hash of the query's signature computed by the parse code outside
`src/`), and the semantics of the generated
`ViewFunction::execute` (frame-support, outside `src/`; per the spec it
decodes the arguments from the input, invokes the query body and
encodes the result, possibly failing at the codec boundary).  Types
(`scale_info::meta_type::<T>()` values) are modelled as opaque cache
keys of type `Nat`. -/
structure ViewFunctionDef where
  name : String
  args : List (String × Nat)
  return_type : Nat
  docs : List String
  suffix : Bytes16
  execute : List Nat → Except ViewFunctionDispatchError (List Nat)

/-- Semantics of the generated `ViewFunctionIdPrefix::prefix()`
(lines 63-73 of `view_functions.rs`): it returns
`PalletInfo::name_hash::<Pallet>().expect(...)`.  The pallet's
registered name hash is the `Option Bytes16` argument; `expect` on
`None` panics, embedded as the `Except` error branch. -/
def prefix_of (name_hash : Option Bytes16) : Except PalletSetupError Bytes16 :=
  match name_hash with
  | some h => .ok h
  | none => .error .palletNotInRuntime

/-- Semantics of the generated `ViewFunction::id()`
(lines 135-141 of `view_functions.rs`): it builds a `ViewFunctionId`
whose `prefix` is `<Pallet as ViewFunctionIdPrefix>::prefix()` and
whose `suffix` is `<Self as ViewFunctionIdSuffix>::SUFFIX`. -/
def view_function_id (name_hash : Option Bytes16) (suffix : Bytes16) :
    Except PalletSetupError ViewFunctionId :=
  match prefix_of name_hash with
  | .ok p => .ok ⟨p, suffix⟩
  | .error e => .error e

/-- Semantics of the generated `dispatch_view_function`
(lines 173-191 of `view_functions.rs`): a `match` on `id.suffix` with
one constant arm per declared view function, in declaration order,
whose body calls that view function's `execute`, and a final wildcard
arm returning `Err(NotFound(id.clone()))`. -/
def dispatch_view_function (view_fns : List ViewFunctionDef)
    (id : ViewFunctionId) (input : List Nat) :
    Except ViewFunctionDispatchError (List Nat) :=
  match view_fns with
  | [] => .error (.NotFound id)
  | vf :: rest =>
    if id.suffix = vf.suffix then vf.execute input
    else dispatch_view_function rest id input

/-- The `#[deny(unreachable_patterns)]` check on the generated match
(line 177 of `view_functions.rs`): a constant arm is unreachable
exactly when an earlier arm carries the same 16-byte constant, so the
expansion is rejected by the compiler iff some suffix occurs twice in
the arm list. -/
def dispatch_arms_reject : List Bytes16 → Bool
  | [] => false
  | s :: rest => if s ∈ rest then true else dispatch_arms_reject rest

/-- A scale-info `Registry` (the interning store from the external
`scale-info` crate, outside `src/`), as the spec's TypeRegistry.
Modelled from the spec: a "deduplicating store mapping a structural
type description to a stable integer handle"; `types` lists the
registered cache keys in registration order and a handle is an index
into it. -/
structure Registry where
  types : List Nat
deriving DecidableEq

/-- Index of the first occurrence of a cache key in a registration
list, if any. -/
def registry_index (t : Nat) : List Nat → Option Nat
  | [] => none
  | x :: xs => if x = t then some 0 else (registry_index t xs).map (· + 1)

/-- Modelled from the spec: look up a cache key in the registry,
returning the handle of its first registration if present. -/
def Registry.lookup (r : Registry) (t : Nat) : Option Nat :=
  registry_index t r.types

/-- Modelled from the spec: `Registry::register_type` — "if a type
with the same cache key was already registered, return the existing
handle (no new description stored); otherwise ... store the
description at a freshly allocated handle, and return it". -/
def Registry.register_type (r : Registry) (t : Nat) : Nat × Registry :=
  match r.lookup t with
  | some i => (i, r)
  | none => (r.types.length, ⟨r.types ++ [t]⟩)

/-- Modelled from the spec: `Registry::map_into_portable` (scale-info,
outside `src/`) converts a `Vec` element by element in order,
threading the registry through. -/
def Registry.map_into_portable {α β : Type} (f : α → Registry → β × Registry) :
    List α → Registry → List β × Registry
  | [], r => ([], r)
  | x :: xs, r =>
    let yr := f x r
    let ysr := Registry.map_into_portable f xs yr.2
    (yr.1 :: ysr.1, ysr.2)

/-- Metadata of one view-function argument, meta form
(`QueryArgMetadataIR<MetaForm>` in `types.rs` lines 184-191; the macro
refers to it as `ViewFunctionArgMetadataIR`): the argument name and
its type as an inline `MetaType` (an opaque cache key here). -/
structure QueryArgMetadataIR where
  name : String
  ty : Nat
deriving DecidableEq

/-- Metadata of one view-function argument, portable form
(`QueryArgMetadataIR<PortableForm>`): `ty` is now a registry handle. -/
structure QueryArgMetadataIRPortable where
  name : String
  ty : Nat
deriving DecidableEq

/-- Metadata of one view function, meta form
(`ViewFunctionMetadataIR<MetaForm>` in `types.rs` lines 155-168):
name, the flat 32-byte id, the argument list, the output type (inline)
and the doc strings. -/
structure ViewFunctionMetadataIR where
  name : String
  id : List Nat
  args : List QueryArgMetadataIR
  output : Nat
  docs : List String
deriving DecidableEq

/-- Metadata of one view function, portable form: `args` and `output`
now hold registry handles. -/
structure ViewFunctionMetadataIRPortable where
  name : String
  id : List Nat
  args : List QueryArgMetadataIRPortable
  output : Nat
  docs : List String
deriving DecidableEq

/-- The per-pallet group of view functions, meta form
(`ViewFunctionsInterfaceIR<MetaForm>` in `types.rs` lines 132-141,
where the list field is called `queries`; the macro builds the same
shape under the name `ViewFunctionGroupIR` with the field
`view_functions`). -/
structure ViewFunctionGroupIR where
  name : String
  view_functions : List ViewFunctionMetadataIR
  docs : List String
deriving DecidableEq

/-- The per-pallet group of view functions, portable form. -/
structure ViewFunctionGroupIRPortable where
  name : String
  view_functions : List ViewFunctionMetadataIRPortable
  docs : List String
deriving DecidableEq

/-- `QueryArgMetadataIR::into_portable` (`types.rs` lines 193-202):
the name is carried over (string portability preserves content and
does not touch the registry) and `ty` is `registry.register_type`d. -/
def QueryArgMetadataIR.into_portable (a : QueryArgMetadataIR) (r : Registry) :
    QueryArgMetadataIRPortable × Registry :=
  let tyr := r.register_type a.ty
  (⟨a.name, tyr.1⟩, tyr.2)

/-- `ViewFunctionMetadataIR::into_portable` (`types.rs` lines
170-182): `name` carried over, `id: self.id` verbatim, `args` via
`map_into_portable`, `output` via `register_type`, `docs` carried
over; registry effects happen in field order (args, then output). -/
def ViewFunctionMetadataIR.into_portable (vf : ViewFunctionMetadataIR)
    (r : Registry) : ViewFunctionMetadataIRPortable × Registry :=
  let argsr := Registry.map_into_portable QueryArgMetadataIR.into_portable vf.args r
  let outr := argsr.2.register_type vf.output
  (⟨vf.name, vf.id, argsr.1, outr.1, vf.docs⟩, outr.2)

/-- `ViewFunctionsInterfaceIR::into_portable` (`types.rs` lines
143-153): `name` and `docs` carried over, the query list converted
element by element via `map_into_portable`. -/
def ViewFunctionGroupIR.into_portable (g : ViewFunctionGroupIR) (r : Registry) :
    ViewFunctionGroupIRPortable × Registry :=
  let qsr := Registry.map_into_portable ViewFunctionMetadataIR.into_portable
    g.view_functions r
  (⟨g.name, qsr.1, g.docs⟩, qsr.2)

/-- The empty registry a conversion pass starts from. -/
def Registry.empty : Registry := ⟨[]⟩

/-- Monadic map over `Except`, evaluating left to right and stopping
at the first error — the evaluation order of the generated
`vec![ ... ]` literal of metadata entries, where each entry's `id()`
may panic. -/
def mapMExcept {ε α β : Type} (f : α → Except ε β) : List α → Except ε (List β)
  | [] => .ok []
  | x :: xs =>
    match f x with
    | .error e => .error e
    | .ok y => (mapMExcept f xs).map (y :: ·)

/-- One generated `ViewFunctionMetadataIR { .. }` literal
(lines 227-237 of `view_functions.rs`): the view function's name, its
`id().into()` as 32 bytes, one `ViewFunctionArgMetadataIR` per typed
argument with `name: stringify!(pat)` and `ty: meta_type::<ty>()`, the
`meta_type` of the declared `ReturnType`, and the doc strings — the
latter replaced by `vec![]` when the `no-metadata-docs` feature is on
(`capture_docs = false`). -/
def view_function_metadata_ir (capture_docs : Bool)
    (name_hash : Option Bytes16) (vf : ViewFunctionDef) :
    Except PalletSetupError ViewFunctionMetadataIR :=
  match view_function_id name_hash vf.suffix with
  | .error e => .error e
  | .ok id =>
    .ok { name := vf.name
          id := id.toBytes
          args := vf.args.map (fun a => ⟨a.1, a.2⟩)
          output := vf.return_type
          docs := if capture_docs then vf.docs else [] }

/-- Semantics of the generated `pallet_view_functions_metadata(name)`
(lines 243-256 of `view_functions.rs`): a `ViewFunctionGroupIR` whose
`name` is the passed-in name, whose `view_functions` vec holds one
metadata entry per declared view function in declaration order, and
whose `docs` are the group docs (or `vec![]` under
`no-metadata-docs`).  For a pallet without a view-functions impl the
macro expands with an empty list and empty docs
(`expand_view_functions`, lines 23-31). -/
def pallet_view_functions_metadata (capture_docs : Bool)
    (name_hash : Option Bytes16) (view_fns : List ViewFunctionDef)
    (docs : List String) (name : String) :
    Except PalletSetupError ViewFunctionGroupIR :=
  (mapMExcept (view_function_metadata_ir capture_docs name_hash) view_fns).map
    (fun vfs =>
      { name := name
        view_functions := vfs
        docs := if capture_docs then docs else [] })

/-- Erase every documentation field of a group, keeping all other
fields; used to state that the doc-capture toggle affects nothing but
the doc fields. -/
def ViewFunctionGroupIR.stripDocs (g : ViewFunctionGroupIR) : ViewFunctionGroupIR :=
  { g with
    docs := []
    view_functions := g.view_functions.map (fun vf => { vf with docs := [] }) }

/-- A pallet as seen by the runtime-level dispatcher: its identifier
prefix and its declared view functions. -/
structure PalletRuntimeEntry where
  prefix_ : Bytes16
  view_fns : List ViewFunctionDef

/-- Modelled from the spec: the runtime-level caller of the per-pallet
dispatcher (the `construct_runtime!` expansion, outside `src/`).  Per
the spec, "the caller has already matched `id.prefix` against the
module's own prefix before invoking dispatch (prefix
matching/module selection is the caller's responsibility)": the
runtime selects the pallet whose prefix equals `id.prefix` and only
then invokes that pallet's generated `dispatch_view_function`. -/
def runtime_dispatch_view_function (pallets : List PalletRuntimeEntry)
    (id : ViewFunctionId) (input : List Nat) :
    Except ViewFunctionDispatchError (List Nat) :=
  match pallets with
  | [] => .error (.NotFound id)
  | p :: rest =>
    if id.prefix_ = p.prefix_ then dispatch_view_function p.view_fns id input
    else runtime_dispatch_view_function rest id input

/-- Concrete 16-byte value used in witnesses. -/
def bytesA : Bytes16 := ⟨List.replicate 16 0, by simp⟩

/-- Concrete 16-byte value used in witnesses. -/
def bytesB : Bytes16 := ⟨List.replicate 16 1, by simp⟩

/-- Concrete 16-byte value used in witnesses. -/
def bytesC : Bytes16 := ⟨List.replicate 16 2, by simp⟩

/-- Concrete view function used in witnesses. -/
def vfExA : ViewFunctionDef :=
  { name := "balance_of", args := [("who", 1)], return_type := 2
    docs := ["query doc"], suffix := bytesA, execute := fun i => .ok i }

/-- Concrete view function used in witnesses. -/
def vfExB : ViewFunctionDef :=
  { name := "total_issuance", args := [], return_type := 3
    docs := [], suffix := bytesB, execute := fun _ => .ok [7] }

/-- Concrete view function sharing its suffix with `vfExA`, used in
witnesses about suffix collisions and prefix isolation. -/
def vfExDup : ViewFunctionDef :=
  { name := "get", args := [], return_type := 4
    docs := [], suffix := bytesA, execute := fun _ => .ok [9] }

/-- Concrete meta-form view-function metadata used in witnesses. -/
def vfmEx : ViewFunctionMetadataIR :=
  { name := "balance_of", id := List.replicate 32 0
    args := [⟨"who", 5⟩], output := 6, docs := ["query doc"] }

/-- The generated dispatch match compiles (no arm is flagged by
`deny(unreachable_patterns)`) exactly when the declared suffixes are
pairwise distinct. -/
theorem dispatch_arms_reject_eq_false_iff (l : List Bytes16) :
    dispatch_arms_reject l = false ↔ l.Nodup := by
  induction l with
  | nil => simp [dispatch_arms_reject]
  | cons s rest ih =>
    by_cases h : s ∈ rest
    · simp [dispatch_arms_reject, h]
    · simp [dispatch_arms_reject, h, ih]

/-- When the declared suffixes are pairwise distinct, dispatching an
identifier whose suffix is the `i`-th declared suffix invokes the
`i`-th view function. -/
theorem dispatch_view_function_get (view_fns : List ViewFunctionDef)
    (h : (view_fns.map ViewFunctionDef.suffix).Nodup) (i : Fin view_fns.length)
    (p : Bytes16) (input : List Nat) :
    dispatch_view_function view_fns ⟨p, (view_fns.get i).suffix⟩ input
      = (view_fns.get i).execute input := by
  induction view_fns with
  | nil => exact absurd i.isLt (by simp)
  | cons vf rest ih =>
    simp only [List.map_cons, List.nodup_cons] at h
    obtain ⟨hnot, hnd⟩ := h
    cases i using Fin.cases with
    | zero => simp [dispatch_view_function]
    | succ i =>
      have hmem : (rest.get i).suffix ∈ rest.map ViewFunctionDef.suffix :=
        List.mem_map_of_mem _ (rest.get_mem i.val i.isLt)
      have hne : (rest.get i).suffix ≠ vf.suffix := fun hEq => hnot (hEq ▸ hmem)
      simp only [List.get_eq_getElem] at hne
      simpa [dispatch_view_function, hne] using ih hnd i

/-- An index returned by `registry_index` is a valid position in the
registration list. -/
theorem registry_index_lt {t : Nat} {l : List Nat} {i : Nat}
    (h : registry_index t l = some i) : i < l.length := by
  induction l generalizing i with
  | nil => exact absurd h (by simp [registry_index])
  | cons x xs ih =>
    simp only [registry_index] at h
    by_cases hx : x = t
    · rw [if_pos hx] at h
      cases h
      simp
    · rw [if_neg hx] at h
      cases hm : registry_index t xs with
      | none => rw [hm] at h; exact absurd h (by simp)
      | some j =>
        rw [hm] at h
        simp at h
        have := ih hm
        simp only [List.length_cons]
        omega

/-- The handle returned by `register_type` is a valid index into the
resulting registry. -/
theorem Registry.register_type_handle_lt (r : Registry) (t : Nat) :
    (r.register_type t).1 < (r.register_type t).2.types.length := by
  unfold Registry.register_type
  cases hm : r.lookup t with
  | some i => simpa using registry_index_lt hm
  | none => simp

/-- Registering a type never shrinks the registry. -/
theorem Registry.register_type_size_le (r : Registry) (t : Nat) :
    r.types.length ≤ (r.register_type t).2.types.length := by
  unfold Registry.register_type
  cases hm : r.lookup t with
  | some i => simp
  | none => simp

/-- Converting a list of argument metadata never shrinks the
registry. -/
theorem map_into_portable_args_size_le (args : List QueryArgMetadataIR)
    (r : Registry) :
    r.types.length ≤
      (Registry.map_into_portable QueryArgMetadataIR.into_portable args r).2.types.length := by
  induction args generalizing r with
  | nil => exact Nat.le_refl _
  | cons a rest ih =>
    simp only [Registry.map_into_portable]
    exact Nat.le_trans
      (Nat.le_trans (Registry.register_type_size_le r a.ty)
        (Nat.le_of_eq (by simp [QueryArgMetadataIR.into_portable])))
      (ih _)

/-- Argument conversion preserves the argument names, in order. -/
theorem map_into_portable_args_names (args : List QueryArgMetadataIR)
    (r : Registry) :
    (Registry.map_into_portable QueryArgMetadataIR.into_portable args r).1.map
        QueryArgMetadataIRPortable.name
      = args.map QueryArgMetadataIR.name := by
  induction args generalizing r with
  | nil => rfl
  | cons a rest ih =>
    simp only [Registry.map_into_portable, List.map_cons]
    exact congrArg (_ :: ·) (ih _)

/-- Every handle produced for an argument type is a valid index into
the registry resulting from the argument-list conversion. -/
theorem map_into_portable_args_ty_lt (args : List QueryArgMetadataIR)
    (r : Registry) :
    ∀ a ∈ (Registry.map_into_portable QueryArgMetadataIR.into_portable args r).1,
      a.ty <
        (Registry.map_into_portable QueryArgMetadataIR.into_portable args r).2.types.length := by
  induction args generalizing r with
  | nil => intro a ha; exact absurd ha (by simp [Registry.map_into_portable])
  | cons a rest ih =>
    intro b hb
    simp only [Registry.map_into_portable, List.mem_cons] at hb
    rcases hb with hb | hb
    · subst hb
      have h1 := Registry.register_type_handle_lt r a.ty
      have h2 := map_into_portable_args_size_le rest (r.register_type a.ty).2
      simp only [QueryArgMetadataIR.into_portable]
      exact Nat.lt_of_lt_of_le h1 (by simpa [QueryArgMetadataIR.into_portable] using h2)
    · exact ih _ b hb

/-- Closed form of the generated metadata entries for a registered
pallet: each declared view function yields one entry, in order, with
the id assembled from the pallet prefix and the function's suffix. -/
theorem mapMExcept_metadata_ok (capture_docs : Bool) (p : Bytes16)
    (view_fns : List ViewFunctionDef) :
    mapMExcept (view_function_metadata_ir capture_docs (some p)) view_fns
      = .ok (view_fns.map (fun vf =>
          { name := vf.name
            id := ViewFunctionId.toBytes ⟨p, vf.suffix⟩
            args := vf.args.map (fun a => ⟨a.1, a.2⟩)
            output := vf.return_type
            docs := if capture_docs then vf.docs else [] })) := by
  induction view_fns with
  | nil => rfl
  | cons vf rest ih =>
    simp only [mapMExcept, view_function_metadata_ir, view_function_id, prefix_of]
    rw [ih]
    rfl

/-- For an unregistered pallet with at least one view function, the
generated metadata assembly hits the `prefix()` panic. -/
theorem mapMExcept_metadata_none (capture_docs : Bool)
    (vf : ViewFunctionDef) (rest : List ViewFunctionDef) :
    mapMExcept (view_function_metadata_ir capture_docs none) (vf :: rest)
      = .error .palletNotInRuntime := rfl

/-- C1: the generated `id()` returns an identifier composed of exactly
two parts — its `prefix` field is the owning pallet's `prefix()`
result and its `suffix` field is the view function's 16-byte `SUFFIX`
constant; `id()` is a function of those two inputs alone, and the
identifier flattens to 32 bytes. -/
theorem c1_view_function_id_composition :
    (∀ (p sfx : Bytes16), view_function_id (some p) sfx = .ok ⟨p, sfx⟩) ∧
    (∀ (name_hash : Option Bytes16) (sfx : Bytes16) (id : ViewFunctionId),
      view_function_id name_hash sfx = .ok id →
        prefix_of name_hash = .ok id.prefix_ ∧ id.suffix = sfx) ∧
    (∀ id : ViewFunctionId, id.toBytes.length = 32) := by
  refine ⟨fun p sfx => rfl, fun name_hash sfx id h => ?_, fun id => ?_⟩
  · cases name_hash with
    | some p =>
      simp only [view_function_id, prefix_of, Except.ok.injEq] at h
      subst h
      exact ⟨rfl, rfl⟩
    | none => exact absurd h (by simp [view_function_id, prefix_of])
  · simp [ViewFunctionId.toBytes, id.prefix_.property, id.suffix.property]

/-- Witness for C1 at a concrete pallet prefix and suffix. -/
theorem c1_witness :
    prefix_of (some bytesA) = .ok (ViewFunctionId.mk bytesA bytesB).prefix_ ∧
      (ViewFunctionId.mk bytesA bytesB).suffix = bytesB :=
  c1_view_function_id_composition.2.1 (some bytesA) bytesB ⟨bytesA, bytesB⟩ rfl

/-- C2: dispatching an identifier whose suffix matches no declared
view-function suffix yields `NotFound` carrying exactly that full
identifier, and any error the dispatch match itself constructs (rather
than propagates from a view function's `execute`) is that `NotFound`. -/
theorem c2_dispatch_not_found :
    ∀ (view_fns : List ViewFunctionDef) (id : ViewFunctionId) (input : List Nat),
      (id.suffix ∉ view_fns.map ViewFunctionDef.suffix →
        dispatch_view_function view_fns id input = .error (.NotFound id)) ∧
      (∀ e, dispatch_view_function view_fns id input = .error e →
        e = .NotFound id ∨ ∃ vf ∈ view_fns, vf.execute input = .error e) := by
  intro view_fns id input
  induction view_fns with
  | nil =>
    refine ⟨fun _ => rfl, fun e h => ?_⟩
    left
    simpa [dispatch_view_function] using h.symm
  | cons vf rest ih =>
    constructor
    · intro hmem
      simp only [List.map_cons, List.mem_cons, not_or] at hmem
      obtain ⟨hne, hrest⟩ := hmem
      simp only [dispatch_view_function, if_neg hne]
      exact ih.1 hrest
    · intro e h
      simp only [dispatch_view_function] at h
      by_cases hc : id.suffix = vf.suffix
      · rw [if_pos hc] at h
        exact Or.inr ⟨vf, List.mem_cons_self vf rest, h⟩
      · rw [if_neg hc] at h
        rcases ih.2 e h with h1 | ⟨vf2, hm, hx⟩
        · exact Or.inl h1
        · exact Or.inr ⟨vf2, List.mem_cons_of_mem _ hm, hx⟩

/-- Witness for C2: a concrete unknown suffix yields `NotFound` with
the full identifier. -/
theorem c2_witness :
    dispatch_view_function [vfExB] ⟨bytesA, bytesC⟩ [1, 2]
      = .error (.NotFound ⟨bytesA, bytesC⟩) :=
  (c2_dispatch_not_found [vfExB] ⟨bytesA, bytesC⟩ [1, 2]).1 (by decide)

/-- C3: `ViewFunctionMetadataIR::into_portable` rewrites only the
type-reference fields into registry handles (each handle a valid index
into the resulting registry): the `id` bytes are copied verbatim, the
`name` and `docs` keep their content, the argument list keeps its
length and order, and each argument keeps its `name`. -/
theorem c3_into_portable_preserves :
    ∀ (vf : ViewFunctionMetadataIR) (r : Registry),
      ((vf.into_portable r).1.name = vf.name) ∧
      ((vf.into_portable r).1.id = vf.id) ∧
      ((vf.into_portable r).1.docs = vf.docs) ∧
      ((vf.into_portable r).1.args.map QueryArgMetadataIRPortable.name
        = vf.args.map QueryArgMetadataIR.name) ∧
      ((vf.into_portable r).1.args.length = vf.args.length) ∧
      ((vf.into_portable r).1.output < (vf.into_portable r).2.types.length) ∧
      (∀ a ∈ (vf.into_portable r).1.args,
        a.ty < (vf.into_portable r).2.types.length) := by
  intro vf r
  refine ⟨rfl, rfl, rfl, map_into_portable_args_names vf.args r, ?_, ?_, ?_⟩
  · have h4 : (vf.into_portable r).1.args.map QueryArgMetadataIRPortable.name
        = vf.args.map QueryArgMetadataIR.name := map_into_portable_args_names vf.args r
    simpa using congrArg List.length h4
  · exact Registry.register_type_handle_lt _ vf.output
  · intro a ha
    have h1 := map_into_portable_args_ty_lt vf.args r a ha
    have h2 := Registry.register_type_size_le
      (Registry.map_into_portable QueryArgMetadataIR.into_portable vf.args r).2 vf.output
    exact Nat.lt_of_lt_of_le h1 h2

/-- Witness for C3: a concrete argument handle is a valid registry
index after conversion. -/
theorem c3_witness :
    (⟨"who", 0⟩ : QueryArgMetadataIRPortable).ty
      < (vfmEx.into_portable Registry.empty).2.types.length :=
  (c3_into_portable_preserves vfmEx Registry.empty).2.2.2.2.2.2 ⟨"who", 0⟩ (by decide)

/-- C4: with runtime-level prefix matching (the caller's module
selection, modelled from the spec), an identifier carrying another
module's prefix is routed to that module's dispatcher even when its
suffix matches a local view function, so the local view function is
not invoked; an identifier carrying the module's own prefix is
resolved by that module's own dispatcher. -/
theorem c4_prefix_isolation :
    ∀ (pA pB : Bytes16) (fnsA fnsB : List ViewFunctionDef)
      (s : Bytes16) (input : List Nat),
      pA ≠ pB →
      (runtime_dispatch_view_function [⟨pA, fnsA⟩, ⟨pB, fnsB⟩] ⟨pB, s⟩ input
        = dispatch_view_function fnsB ⟨pB, s⟩ input) ∧
      (runtime_dispatch_view_function [⟨pA, fnsA⟩, ⟨pB, fnsB⟩] ⟨pA, s⟩ input
        = dispatch_view_function fnsA ⟨pA, s⟩ input) := by
  intro pA pB fnsA fnsB s input hne
  constructor
  · simp [runtime_dispatch_view_function, Ne.symm hne]
  · simp [runtime_dispatch_view_function]

/-- Witness for C4: the two modules share the suffix `bytesA`; routing
an identifier with module B's prefix resolves against B even though
module A also declares a view function with that suffix. -/
theorem c4_witness :
    runtime_dispatch_view_function
        [⟨bytesA, [vfExA]⟩, ⟨bytesB, [vfExDup]⟩] ⟨bytesB, bytesA⟩ [3]
      = dispatch_view_function [vfExDup] ⟨bytesB, bytesA⟩ [3] :=
  (c4_prefix_isolation bytesA bytesB [vfExA] [vfExDup] bytesA [3] (by decide)).1

/-- C5: a view-function list containing two entries with identical
suffixes makes one generated match arm unreachable, so
`#[deny(unreachable_patterns)]` rejects the expansion at compile time;
and whenever the expansion compiles (pairwise-distinct suffixes), each
suffix dispatches to its own view function. -/
theorem c5_duplicate_suffix_rejected :
    ∀ (view_fns : List ViewFunctionDef),
      ((∃ i j : Fin view_fns.length, i ≠ j ∧
          (view_fns.get i).suffix = (view_fns.get j).suffix) →
        dispatch_arms_reject (view_fns.map ViewFunctionDef.suffix) = true) ∧
      (dispatch_arms_reject (view_fns.map ViewFunctionDef.suffix) = false →
        ∀ (i : Fin view_fns.length) (p : Bytes16) (input : List Nat),
          dispatch_view_function view_fns ⟨p, (view_fns.get i).suffix⟩ input
            = (view_fns.get i).execute input) := by
  intro view_fns
  constructor
  · rintro ⟨i, j, hij, heq⟩
    by_contra hF
    rw [Bool.not_eq_true] at hF
    have hnd : (view_fns.map ViewFunctionDef.suffix).Nodup :=
      (dispatch_arms_reject_eq_false_iff _).mp hF
    have hlen : view_fns.length = (view_fns.map ViewFunctionDef.suffix).length :=
      (List.length_map _ _).symm
    have hget :
        (view_fns.map ViewFunctionDef.suffix).get (Fin.cast hlen i)
          = (view_fns.map ViewFunctionDef.suffix).get (Fin.cast hlen j) := by
      simp only [List.get_eq_getElem, Fin.coe_cast, List.getElem_map]
      exact heq
    have : Fin.cast hlen i = Fin.cast hlen j := (hnd.get_inj_iff).mp hget
    exact hij (Fin.ext (by simpa using congrArg Fin.val this))
  · intro hF i p input
    exact dispatch_view_function_get view_fns
      ((dispatch_arms_reject_eq_false_iff _).mp hF) i p input

/-- Witness for C5: a duplicate pair of suffixes fires the
unreachable-pattern denial, and on a collision-free list the first
declared suffix dispatches to the first view function. -/
theorem c5_witness :
    dispatch_arms_reject ([vfExA, vfExDup].map ViewFunctionDef.suffix) = true ∧
    dispatch_view_function [vfExA, vfExB]
        ⟨bytesC, ([vfExA, vfExB].get ⟨0, by decide⟩).suffix⟩ [5]
      = ([vfExA, vfExB].get ⟨0, by decide⟩).execute [5] :=
  ⟨(c5_duplicate_suffix_rejected [vfExA, vfExDup]).1
      ⟨⟨0, by decide⟩, ⟨1, by decide⟩, by decide, rfl⟩,
    (c5_duplicate_suffix_rejected [vfExA, vfExB]).2 (by decide) ⟨0, by decide⟩ bytesC [5]⟩

/-- C6: the generated `prefix()` fails exactly when the pallet's name
hash is unavailable (the pallet is not registered in the runtime); the
failure is the fatal configuration panic, and under the registration
precondition `prefix()` returns the pallet's 16-byte name hash. -/
theorem c6_prefix_total_iff_registered :
    ∀ (name_hash : Option Bytes16),
      (∀ h : Bytes16, name_hash = some h → prefix_of name_hash = .ok h) ∧
      (prefix_of name_hash = .error .palletNotInRuntime ↔ name_hash = none) := by
  intro name_hash
  constructor
  · intro h hEq
    subst hEq
    rfl
  · cases name_hash <;> simp [prefix_of]

/-- Witness for C6: a registered pallet's `prefix()` returns its name
hash. -/
theorem c6_witness : prefix_of (some bytesA) = .ok bytesA :=
  (c6_prefix_total_iff_registered (some bytesA)).1 bytesA rfl

/-- Closed form of the generated `pallet_view_functions_metadata` for
a registered pallet, for either doc-capture mode. -/
theorem pallet_view_functions_metadata_registered (capture_docs : Bool)
    (p : Bytes16) (view_fns : List ViewFunctionDef) (docs : List String)
    (name : String) :
    pallet_view_functions_metadata capture_docs (some p) view_fns docs name
      = .ok { name := name
              view_functions := view_fns.map (fun vf =>
                { name := vf.name
                  id := ViewFunctionId.toBytes ⟨p, vf.suffix⟩
                  args := vf.args.map (fun a => ⟨a.1, a.2⟩)
                  output := vf.return_type
                  docs := if capture_docs then vf.docs else [] })
              docs := if capture_docs then docs else [] } := by
  simp only [pallet_view_functions_metadata, mapMExcept_metadata_ok]
  rfl

/-- C7: assembling the metadata group of a registered pallet with a
given name yields a group holding exactly that name, the group docs,
and one view-function entry per declared view function in declaration
order, each recording the function's name, its full identifier, its
(name, type) argument pairs in order, its return type and its docs. -/
theorem c7_metadata_group :
    ∀ (p : Bytes16) (view_fns : List ViewFunctionDef) (docs : List String)
      (name : String),
      pallet_view_functions_metadata true (some p) view_fns docs name
        = .ok { name := name
                view_functions := view_fns.map (fun vf =>
                  { name := vf.name
                    id := ViewFunctionId.toBytes ⟨p, vf.suffix⟩
                    args := vf.args.map (fun a => ⟨a.1, a.2⟩)
                    output := vf.return_type
                    docs := vf.docs })
                docs := docs } := by
  intro p view_fns docs name
  rw [pallet_view_functions_metadata_registered]
  rfl

/-- C8: the doc-capture toggle only affects the documentation fields:
`never` mode equals `always` mode with every doc field emptied, docs
are empty lists in `never` mode, and `always` mode embeds the source
doc strings of the group and of each view function. -/
theorem c8_capture_docs_toggle :
    ∀ (name_hash : Option Bytes16) (view_fns : List ViewFunctionDef)
      (docs : List String) (name : String),
      (pallet_view_functions_metadata false name_hash view_fns docs name
        = (pallet_view_functions_metadata true name_hash view_fns docs name).map
            ViewFunctionGroupIR.stripDocs) ∧
      (∀ g, pallet_view_functions_metadata false name_hash view_fns docs name = .ok g →
        g.docs = [] ∧ ∀ vf ∈ g.view_functions, vf.docs = ([] : List String)) ∧
      (∀ g, pallet_view_functions_metadata true name_hash view_fns docs name = .ok g →
        g.docs = docs ∧
          g.view_functions.map ViewFunctionMetadataIR.docs
            = view_fns.map ViewFunctionDef.docs) := by
  intro name_hash view_fns docs name
  cases name_hash with
  | some p =>
    refine ⟨?_, ?_, ?_⟩
    · rw [pallet_view_functions_metadata_registered,
        pallet_view_functions_metadata_registered]
      simp only [Except.map, ViewFunctionGroupIR.stripDocs, List.map_map]
      rfl
    · intro g hg
      rw [pallet_view_functions_metadata_registered] at hg
      injection hg with h
      subst h
      refine ⟨rfl, ?_⟩
      intro vf hv
      rw [List.mem_map] at hv
      obtain ⟨vf0, _, rfl⟩ := hv
      rfl
    · intro g hg
      rw [pallet_view_functions_metadata_registered] at hg
      injection hg with h
      subst h
      refine ⟨rfl, ?_⟩
      rw [List.map_map]
      rfl
  | none =>
    cases view_fns with
    | nil =>
      refine ⟨rfl, ?_, ?_⟩
      · intro g hg
        rw [show pallet_view_functions_metadata false none [] docs name
              = .ok ⟨name, [], []⟩ from rfl] at hg
        injection hg with h
        subst h
        exact ⟨rfl, fun vf hv => absurd hv (by simp)⟩
      · intro g hg
        rw [show pallet_view_functions_metadata true none [] docs name
              = .ok ⟨name, [], docs⟩ from rfl] at hg
        injection hg with h
        subst h
        exact ⟨rfl, rfl⟩
    | cons vf rest =>
      refine ⟨rfl, ?_, ?_⟩
      · intro g hg
        rw [show pallet_view_functions_metadata false none (vf :: rest) docs name
              = .error .palletNotInRuntime from rfl] at hg
        exact absurd hg (by simp)
      · intro g hg
        rw [show pallet_view_functions_metadata true none (vf :: rest) docs name
              = .error .palletNotInRuntime from rfl] at hg
        exact absurd hg (by simp)

/-- Witness for C8: in `never` mode the assembled group of a concrete
registered pallet has empty group docs. -/
theorem c8_witness :
    (⟨"Balances",
        [⟨"balance_of", ViewFunctionId.toBytes ⟨bytesA, bytesA⟩, [⟨"who", 1⟩], 2, []⟩],
        []⟩ : ViewFunctionGroupIR).docs = [] :=
  ((c8_capture_docs_toggle (some bytesA) [vfExA] ["group doc"] "Balances").2.1
    ⟨"Balances",
      [⟨"balance_of", ViewFunctionId.toBytes ⟨bytesA, bytesA⟩, [⟨"who", 1⟩], 2, []⟩],
      []⟩ rfl).1

/-- C9: metadata assembly and portability conversion are
deterministic.  Both are embedded as pure functions — the source
passes the registry explicitly and reads no other state — so building
the group twice from the same inputs, or converting the same IR twice
from an empty registry, yields identical results by reflexivity. -/
theorem c9_determinism :
    ∀ (capture_docs : Bool) (name_hash : Option Bytes16)
      (view_fns : List ViewFunctionDef) (docs : List String) (name : String)
      (g : ViewFunctionGroupIR),
      (pallet_view_functions_metadata capture_docs name_hash view_fns docs name
        = pallet_view_functions_metadata capture_docs name_hash view_fns docs name) ∧
      (g.into_portable Registry.empty = g.into_portable Registry.empty) :=
  fun _ _ _ _ _ _ => ⟨rfl, rfl⟩

/-- C10: a pallet declaring no view functions expands with an empty
list (the `None` branch of `expand_view_functions`), so its dispatcher
answers `NotFound` for every identifier (only the wildcard arm
remains) and its assembled metadata group carries the supplied name
with an empty view-function list. -/
theorem c10_empty_pallet :
    ∀ (capture_docs : Bool) (name_hash : Option Bytes16) (name : String)
      (id : ViewFunctionId) (input : List Nat),
      dispatch_view_function [] id input = .error (.NotFound id) ∧
      pallet_view_functions_metadata capture_docs name_hash [] [] name
        = .ok { name := name, view_functions := [], docs := [] } := by
  intro capture_docs name_hash name id input
  refine ⟨rfl, ?_⟩
  cases capture_docs <;> rfl
